import Mathlib

/-!
Shallow embedding of the timed transfer engine of `speedtest_cli.py`:
URL derivation, the per-worker transfer loops, shared-total accumulation,
the final rate computation, the spinner scaffold and the worker pool size.
-/

namespace Speedtest

/-- The known upload-submission suffix `"upload.php"` (lines 73, 116). -/
def uploadSuffix : List Char := "upload.php".toList

/-- Python `s.endswith(suffix)`: Python string suffix test, on character lists. -/
def endsWith (s suffix : List Char) : Bool := decide (suffix <:+ s)

/-- Python `s.rsplit("/", 1)[0]`: everything before the last `'/'`, or `s`
unchanged when `s` contains no `'/'` (line 74). -/
def beforeLastSlash (s : List Char) : List Char :=
  if '/' ∈ s then ((s.reverse.dropWhile (fun c => c ≠ '/')).drop 1).reverse else s

/-- Download base derivation (lines 71-74): strip the trailing path segment
iff the URL ends with `"upload.php"`. -/
def deriveDownloadBase (s : List Char) : List Char :=
  if endsWith s uploadSuffix then beforeLastSlash s else s

/-- Upload endpoint derivation (lines 115-120): append `"upload.php"` with
trailing-slash normalization unless the URL already ends with it. -/
def deriveUploadUrl (s : List Char) : List Char :=
  if endsWith s uploadSuffix then s
  else if endsWith s ['/'] then s ++ uploadSuffix
  else s ++ '/' :: uploadSuffix

theorem endsWith_iff {s suffix : List Char} : endsWith s suffix = true ↔ suffix <:+ s := by
  simp [endsWith]

theorem endsWith_append (s suffix : List Char) : endsWith (s ++ suffix) suffix = true := by
  simp [endsWith_iff]

example : deriveDownloadBase "http://h/speedtest/upload.php".toList = "http://h/speedtest".toList := by decide

example : deriveUploadUrl "http://h/speedtest".toList = "http://h/speedtest/upload.php".toList := by decide

example : deriveDownloadBase (deriveDownloadBase "x/upload.php/upload.php".toList) ≠ deriveDownloadBase "x/upload.php/upload.php".toList := by decide

/-! ## Final rate computation (lines 108 and 147)

`return (bytes_total * 8) / max(0.001, duration_s)` — identical in both
transfer functions.  Arithmetic is modelled over `ℚ`. -/

/-- Line-108/147 divisor `max(0.001, duration_s)`: the divisor of the final division. -/
def rateDivisor (duration_s : ℤ) : ℚ := max (1 / 1000) (duration_s : ℚ)

/-- Return value `(bytes_total * 8) / max(0.001, duration_s)` (lines 108, 147). -/
def computeRate (bytes_total : ℕ) (duration_s : ℤ) : ℚ :=
  (bytes_total * 8 : ℚ) / rateDivisor duration_s

/-! ## Shared-total accumulation (lines 98-100 and 138-140)

Each worker acquires the single lock once, after its loop has exited, and
adds its local counter to `bytes_total`.  The lock serializes the fold-ins,
so an execution is a sequence of `+=` steps, one per worker, in some order
(a permutation of the worker list). -/

/-- The shared `bytes_total` after every worker folded its local counter in,
in the given serialization order: `bytes_total += local_bytes` per worker. -/
def sharedTotal (localCounts : List ℕ) : ℕ := localCounts.foldl (· + ·) 0

/-! ## Download worker (lines 75-100)

Network I/O is abstracted into a trace: one `Attempt` per iteration of the
`while` loop, recording the byte lengths of the chunks that
`resp.iter_content` actually delivered before the request ended
(completion, deadline break, or exception) and whether the request ended in
an exception.  `local_bytes += len(chunk)` happens per chunk inside the
`try`, so chunks already read are counted regardless of how the request
ends, and `n = (n + 1) % len(sizes)` runs after every attempt. -/

/-- Ladder `sizes = [350, 500, 750, 1000, 1500, 2000, 2500, 3000, 3500, 4000]` (line 75). -/
def sizes : List ℕ := [350, 500, 750, 1000, 1500, 2000, 2500, 3000, 3500, 4000]

/-- One iteration of a download worker's `while` loop: the chunk lengths
delivered by `iter_content` before the request ended, and whether it ended
in an exception caught by `except Exception: pass`. -/
structure Attempt where
  chunks : List ℕ
  failed : Bool
deriving DecidableEq

/-- State of a download worker: `(n, local_bytes)`. -/
abbrev DlState := ℕ × ℕ

/-- One loop iteration (lines 84-97): every delivered chunk length is added
to `local_bytes` (line 92) — also when the request later fails, since the
`except` clause does not undo them — and `n` advances (line 97) whether the
attempt completed or failed. -/
def dlStep (st : DlState) (a : Attempt) : DlState :=
  ((st.1 + 1) % sizes.length, st.2 + a.chunks.sum)

/-- A download worker's loop: starts at `n = idx % len(sizes)`,
`local_bytes = 0` (lines 81-82) and runs one `dlStep` per attempt. -/
def dlRun (idx : ℕ) (attempts : List Attempt) : DlState :=
  attempts.foldl dlStep (idx % sizes.length, 0)

/-- The local byte counter of download worker `idx` after its loop. -/
def dlLocalBytes (idx : ℕ) (attempts : List Attempt) : ℕ := (dlRun idx attempts).2

/-- The download URL built at line 85 for ladder index `n`:
`f"{base_url}/random{size}x{size}.jpg"`. -/
def requestUrl (base : List Char) (n : ℕ) : List Char :=
  base ++ "/random".toList ++ (Nat.repr (sizes.getD n 0)).toList
    ++ 'x' :: (Nat.repr (sizes.getD n 0)).toList ++ ".jpg".toList

/-- The URL requested by worker `idx` on its `k`-th attempt (0-based): the
ladder index in force after the first `k` attempts. -/
def dlUrlAt (base : List Char) (idx : ℕ) (attempts : List Attempt) (k : ℕ) : List Char :=
  requestUrl base (dlRun idx (attempts.take k)).1

/-- Function `_timed_transfer_download`, given one trace per spawned worker (paired
with the worker's index argument `i`) and the requested duration: total
bytes are the workers' local counters folded into the shared total, and the
returned value is the line-108 division. -/
def timedTransferDownload (traces : List (ℕ × List Attempt)) (duration_s : ℤ) : ℚ :=
  computeRate (sharedTotal (traces.map fun w => dlLocalBytes w.1 w.2)) duration_s

/-! ## Upload worker (lines 111-147) -/

/-- Payload length `len(payload)` where `payload = os.urandom(1024 * 256)` (line 122). -/
def payloadSize : ℕ := 1024 * 256

/-- The multipart form entry built at line 132:
`{"file": ("payload.bin", payload, "application/octet-stream")}`. -/
structure MultipartFile where
  field : List Char
  filename : List Char
  contentType : List Char
deriving DecidableEq

/-- The `files` argument of every upload POST (line 132). -/
def uploadFiles : MultipartFile :=
  { field := "file".toList
    filename := "payload.bin".toList
    contentType := "application/octet-stream".toList }

/-- One iteration of an upload worker's loop (lines 129-137), given whether
the POST succeeded: on success `local_bytes += len(payload)` (line 135), on
any exception nothing is added (`except Exception: pass`). -/
def upStep (local_bytes : ℕ) (ok : Bool) : ℕ :=
  if ok then local_bytes + payloadSize else local_bytes

/-- An upload worker's local counter after its loop, from the per-attempt
success trace. -/
def upLocalBytes (attempts : List Bool) : ℕ := attempts.foldl upStep 0

/-- Function `_timed_transfer_upload`, given one success trace per spawned worker
and the requested duration (line 147 division). -/
def timedTransferUpload (traces : List (List Bool)) (duration_s : ℤ) : ℚ :=
  computeRate (sharedTotal (traces.map upLocalBytes)) duration_s

/-! ## `run_with_spinner` (lines 31-65)

The monitored function's outcome is an `Except`: `_target` stores a normal
return in `result_container["value"]`, stores any raised exception in
`exc_container["exc"]`, and in `finally` sets the `finished` event.  After
the reporter loop exits, line 64 re-raises a stored exception, else line 65
returns `result_container.get("value")` (which is `None` when absent). -/

/-- The three pieces of state `_target` leaves behind:
`result_container`, `exc_container`, and the `finished` flag. -/
def targetRun {ε α : Type} (outcome : Except ε α) : Option α × Option ε × Bool :=
  match outcome with
  | .ok v => (some v, none, true)
  | .error e => (none, some e, true)

/-- Function `run_with_spinner`: re-raise the stored exception if any, otherwise
return the stored value (`none` models Python's `None` for an absent key). -/
def runWithSpinner {ε α : Type} (outcome : Except ε α) : Except ε (Option α) :=
  match (targetRun outcome).2.1 with
  | some e => .error e
  | none => .ok (targetRun outcome).1

/-! ## Worker pool size (lines 102 and 142)

`for i in range(max(1, threads))` — both functions. -/

/-- The list of worker indices spawned for a given `threads` argument. -/
def workerIds (threads : ℤ) : List ℕ := List.range (max 1 threads).toNat

/-! ## Helper lemmas -/

theorem foldl_add_eq (l : List ℕ) : ∀ b : ℕ, l.foldl (· + ·) b = b + l.sum := by
  induction l with
  | nil => simp
  | cons x l ih => intro b; simp [List.foldl_cons, ih, List.sum_cons]; omega

theorem sharedTotal_eq_sum (l : List ℕ) : sharedTotal l = l.sum := by
  simp [sharedTotal, foldl_add_eq]

theorem sizes_length : sizes.length = 10 := rfl

theorem dlFoldl_fst (l : List Attempt) :
    ∀ n b : ℕ, n < sizes.length → (l.foldl dlStep (n, b)).1 = (n + l.length) % sizes.length := by
  induction l with
  | nil => intro n b h; simp [Nat.mod_eq_of_lt h]
  | cons a l ih =>
      intro n b h
      have hlt : (n + 1) % sizes.length < sizes.length :=
        Nat.mod_lt _ (by rw [sizes_length]; omega)
      simp only [List.foldl_cons, dlStep]
      rw [ih _ _ hlt, Nat.mod_add_mod, List.length_cons]
      have harith : n + 1 + l.length = n + (l.length + 1) := by omega
      rw [harith]

theorem dlFoldl_snd (l : List Attempt) :
    ∀ n b : ℕ, (l.foldl dlStep (n, b)).2 = b + (l.map fun a => a.chunks.sum).sum := by
  induction l with
  | nil => simp
  | cons a l ih => intro n b; simp [List.foldl_cons, dlStep, ih]; omega

theorem upFoldl_eq (tr : List Bool) :
    ∀ b : ℕ, tr.foldl upStep b = b + payloadSize * tr.count true := by
  induction tr with
  | nil => simp
  | cons ok tr ih =>
      intro b
      cases ok <;> simp [List.foldl_cons, upStep, ih, List.count_cons, Nat.mul_succ]
      omega

theorem upLocalBytes_eq (tr : List Bool) : upLocalBytes tr = payloadSize * tr.count true := by
  simp [upLocalBytes, upFoldl_eq]

/-! ## Claims -/

/-- C1: for every `totalBytes ≥ 0` and every integer `durationSeconds > 0`,
both `_timed_transfer_download` and `_timed_transfer_upload` return exactly
`totalBytes * 8 / durationSeconds`, with the requested duration — the
`duration_s` parameter, not wall-clock time — as the divisor. -/
theorem rate_uses_requested_duration (dtraces : List (ℕ × List Attempt))
    (utraces : List (List Bool)) (duration_s : ℤ) (h : 0 < duration_s) :
    timedTransferDownload dtraces duration_s =
      ((sharedTotal (dtraces.map fun w => dlLocalBytes w.1 w.2) : ℕ) * 8 : ℚ) / duration_s ∧
    timedTransferUpload utraces duration_s =
      ((sharedTotal (utraces.map upLocalBytes) : ℕ) * 8 : ℚ) / duration_s := by
  have hd : (1 : ℚ) ≤ (duration_s : ℚ) := by exact_mod_cast h
  have hmax : rateDivisor duration_s = (duration_s : ℚ) := by
    apply max_eq_right
    calc (1 / 1000 : ℚ) ≤ 1 := by norm_num
    _ ≤ (duration_s : ℚ) := hd
  constructor <;> simp [timedTransferDownload, timedTransferUpload, computeRate, hmax]

theorem rate_uses_requested_duration_witness :
    (0 : ℤ) < 2 ∧
    timedTransferDownload [(0, [⟨[100], false⟩])] 2 =
      ((sharedTotal ([(0, [(⟨[100], false⟩ : Attempt)])].map fun w => dlLocalBytes w.1 w.2) : ℕ) * 8 : ℚ) / 2 ∧
    timedTransferUpload [[true]] 2 =
      ((sharedTotal ([[true]].map upLocalBytes) : ℕ) * 8 : ℚ) / 2 :=
  ⟨by decide, rate_uses_requested_duration [(0, [⟨[100], false⟩])] [[true]] 2 (by decide)⟩

/-- C2 counterexample: a download request that streams one 100-byte chunk
and then fails keeps that chunk in the worker's local total — the code adds
chunk lengths to `local_bytes` as they arrive (line 92) and the `except`
clause does not subtract them, so the in-flight partial byte count of the
failed request is NOT discarded: the local total is 100, not 0. -/
theorem download_midstream_bytes_kept_cex :
    (Attempt.mk [100] true).failed = true ∧
    dlLocalBytes 0 [Attempt.mk [100] true] = 100 ∧ (100 : ℕ) ≠ 0 := by
  decide

/-- C2 (amended): whenever a download request fails, the worker swallows
the error and continues with the next request (the ladder index advances by
one); the local total accumulated before the failed request is kept
unchanged, and bytes from chunks already read during the failed request are
also kept (added on top) — only bytes never delivered are lost. -/
theorem download_error_swallowed_amended (idx : ℕ) (pre : List Attempt) (a : Attempt)
    (h : a.failed = true) :
    dlLocalBytes idx (pre ++ [a]) = dlLocalBytes idx pre + a.chunks.sum ∧
    (dlRun idx (pre ++ [a])).1 = ((dlRun idx pre).1 + 1) % sizes.length := by
  constructor <;> simp [dlLocalBytes, dlRun, List.foldl_append, dlStep]

theorem download_error_swallowed_amended_witness :
    (Attempt.mk [7] true).failed = true ∧
    (dlLocalBytes 0 ([] ++ [Attempt.mk [7] true]) = dlLocalBytes 0 [] + (Attempt.mk [7] true).chunks.sum ∧
     (dlRun 0 ([] ++ [Attempt.mk [7] true])).1 = ((dlRun 0 []).1 + 1) % sizes.length) :=
  ⟨by decide, download_error_swallowed_amended 0 [] (Attempt.mk [7] true) (by decide)⟩

/-- C3 counterexample: the download base derivation is not idempotent on
every input string: on `"x/upload.php/upload.php"` one application strips
the last segment yielding `"x/upload.php"`, which still ends with
`"upload.php"`, so a second application strips again, yielding `"x"`. -/
theorem derive_download_not_idempotent_cex :
    deriveDownloadBase "x/upload.php/upload.php".toList = "x/upload.php".toList ∧
    deriveDownloadBase (deriveDownloadBase "x/upload.php/upload.php".toList) = "x".toList ∧
    deriveDownloadBase (deriveDownloadBase "x/upload.php/upload.php".toList) ≠
      deriveDownloadBase "x/upload.php/upload.php".toList := by
  decide

/-- C3 (amended): the upload endpoint derivation is idempotent on every
input string (its output always ends with `"upload.php"`, so a second
application changes nothing and never double-appends); the download base
derivation is idempotent on every input whose derived output does not
itself still end with `"upload.php"`, or contains no `'/'` — it fails only
on degenerate inputs whose stripped result again ends in an
`"upload.php"` segment. -/
theorem url_derivation_idempotent_amended (s : List Char) :
    deriveUploadUrl (deriveUploadUrl s) = deriveUploadUrl s ∧
    (endsWith (deriveDownloadBase s) uploadSuffix = false ∨
       ¬ '/' ∈ deriveDownloadBase s →
     deriveDownloadBase (deriveDownloadBase s) = deriveDownloadBase s) := by
  constructor
  · by_cases hs : endsWith s uploadSuffix = true
    · simp [deriveUploadUrl, hs]
    · have hs' : endsWith s uploadSuffix = false := by
        cases hq : endsWith s uploadSuffix
        · rfl
        · exact absurd hq hs
      by_cases hsl : endsWith s ['/'] = true
      · have he : endsWith (s ++ uploadSuffix) uploadSuffix = true := endsWith_append s _
        simp [deriveUploadUrl, hs', hsl, he]
      · have hsl' : endsWith s ['/'] = false := by
          cases hq : endsWith s ['/']
          · rfl
          · exact absurd hq hsl
        have he : endsWith (s ++ '/' :: uploadSuffix) uploadSuffix = true := by
          have : s ++ '/' :: uploadSuffix = (s ++ ['/']) ++ uploadSuffix := by simp
          rw [this]
          exact endsWith_append _ _
        simp [deriveUploadUrl, hs', hsl', he]
  · intro h
    rcases h with h | h
    · rw [deriveDownloadBase, h]
      simp
    · rw [deriveDownloadBase]
      by_cases ht : endsWith (deriveDownloadBase s) uploadSuffix = true
      · rw [if_pos ht, beforeLastSlash, if_neg h]
      · rw [if_neg ht]

theorem url_derivation_idempotent_amended_witness :
    deriveUploadUrl (deriveUploadUrl "http://h/speedtest/upload.php".toList) =
      deriveUploadUrl "http://h/speedtest/upload.php".toList ∧
    (endsWith (deriveDownloadBase "http://h/speedtest/upload.php".toList) uploadSuffix = false ∨
     ¬ '/' ∈ deriveDownloadBase "http://h/speedtest/upload.php".toList) ∧
    deriveDownloadBase (deriveDownloadBase "http://h/speedtest/upload.php".toList) =
      deriveDownloadBase "http://h/speedtest/upload.php".toList :=
  ⟨(url_derivation_idempotent_amended "http://h/speedtest/upload.php".toList).1,
   Or.inl (by decide),
   (url_derivation_idempotent_amended "http://h/speedtest/upload.php".toList).2
     (Or.inl (by decide))⟩

/-- C4: for any sequence of per-worker local byte counts, folding them into
the shared total one at a time — in whatever order the lock serializes the
workers' single post-loop fold-ins — yields exactly the sum of all local
counters: no bytes are lost or double-counted. -/
theorem shared_total_eq_sum_of_locals (localCounts order : List ℕ)
    (h : order.Perm localCounts) : sharedTotal order = localCounts.sum := by
  rw [sharedTotal_eq_sum, h.sum_eq]

theorem shared_total_eq_sum_of_locals_witness :
    ([2, 1].Perm [1, 2]) ∧ sharedTotal [2, 1] = [1, 2].sum :=
  ⟨by decide, shared_total_eq_sum_of_locals [1, 2] [2, 1] (by decide)⟩

/-- C5 counterexample: with every request failing it is still possible to
get a nonzero rate — a download request that streams a 100-byte chunk and
then fails contributes those bytes, so one worker whose single request
failed mid-stream yields a rate of 800, not 0. -/
theorem all_failed_nonzero_rate_cex :
    (Attempt.mk [100] true).failed = true ∧
    timedTransferDownload [(0, [Attempt.mk [100] true])] 1 = 800 ∧
    (800 : ℚ) ≠ 0 := by
  refine ⟨rfl, ?_, by norm_num⟩
  simp [timedTransferDownload, computeRate, rateDivisor, sharedTotal, dlLocalBytes, dlRun,
    dlStep]
  norm_num

/-- C5 (amended): both transfer functions always return a numeric rate (the
model functions are total), and the rate is exactly 0 when every download
request fails without having delivered any response data (connection
failure, non-success status) and every upload request fails — a download
request that fails after streaming data contributes its already-read bytes,
so such failures can make the rate positive. -/
theorem all_failed_zero_rate_amended (dtraces : List (ℕ × List Attempt))
    (utraces : List (List Bool)) (duration_s : ℤ)
    (hd : ∀ w ∈ dtraces, ∀ a ∈ w.2, a.chunks = [])
    (hu : ∀ tr ∈ utraces, ∀ ok ∈ tr, ok = false) :
    timedTransferDownload dtraces duration_s = 0 ∧
    timedTransferUpload utraces duration_s = 0 := by
  have hdl : sharedTotal (dtraces.map fun w => dlLocalBytes w.1 w.2) = 0 := by
    rw [sharedTotal_eq_sum]
    apply List.sum_eq_zero
    intro x hx
    rcases List.mem_map.mp hx with ⟨w, hw, hwx⟩
    rw [← hwx, dlLocalBytes, dlRun, dlFoldl_snd]
    have h2 : (w.2.map fun a => a.chunks.sum).sum = 0 := by
      apply List.sum_eq_zero
      intro y hy
      rcases List.mem_map.mp hy with ⟨a, ha, hay⟩
      rw [← hay, hd w hw a ha]
      rfl
    rw [h2]
    simp
  have hul : sharedTotal (utraces.map upLocalBytes) = 0 := by
    rw [sharedTotal_eq_sum]
    apply List.sum_eq_zero
    intro x hx
    rcases List.mem_map.mp hx with ⟨tr, htr, htx⟩
    rw [← htx, upLocalBytes_eq]
    have hcnt : tr.count true = 0 := by
      rw [List.count_eq_zero]
      intro hmem
      have hft := hu tr htr true hmem
      simp at hft
    rw [hcnt, Nat.mul_zero]
  constructor
  · simp [timedTransferDownload, hdl, computeRate]
  · simp [timedTransferUpload, hul, computeRate]

theorem all_failed_zero_rate_amended_witness :
    (∀ w ∈ [((0 : ℕ), [Attempt.mk [] true])], ∀ a ∈ w.2, a.chunks = ([] : List ℕ)) ∧
    (∀ tr ∈ [[false]], ∀ ok ∈ tr, ok = false) ∧
    (timedTransferDownload [(0, [Attempt.mk [] true])] 1 = 0 ∧
     timedTransferUpload [[false]] 1 = 0) :=
  ⟨by decide, by decide,
   all_failed_zero_rate_amended [(0, [Attempt.mk [] true])] [[false]] 1 (by decide) (by decide)⟩

/-- C6: the `k`-th request (0-based) of download worker `idx` uses ladder
index `(idx + k) % 10` into `sizes = [350, ..., 4000]`, and its URL is
`{base}/random{s}x{s}.jpg` for that size — the index starts at
`idx % len(sizes)` and advances by one after every attempt, completed or
failed alike (the trace's `failed` flags are arbitrary). -/
theorem download_ladder_index (base : List Char) (idx k : ℕ) (attempts : List Attempt)
    (h : k < attempts.length) :
    (dlRun idx (attempts.take k)).1 = (idx + k) % sizes.length ∧
    dlUrlAt base idx attempts k = requestUrl base ((idx + k) % sizes.length) := by
  have hidx : idx % sizes.length < sizes.length := Nat.mod_lt _ (by rw [sizes_length]; omega)
  have hlen : (attempts.take k).length = k := by
    rw [List.length_take]
    omega
  have hfst : (dlRun idx (attempts.take k)).1 = (idx + k) % sizes.length := by
    rw [dlRun, dlFoldl_fst _ _ _ hidx, hlen, Nat.mod_add_mod]
  exact ⟨hfst, by rw [dlUrlAt, hfst]⟩

theorem download_ladder_index_witness :
    3 < ([⟨[], false⟩, ⟨[1], true⟩, ⟨[], false⟩, ⟨[2], false⟩] : List Attempt).length ∧
    ((dlRun 11 (([⟨[], false⟩, ⟨[1], true⟩, ⟨[], false⟩, ⟨[2], false⟩] : List Attempt).take 3)).1 =
       (11 + 3) % sizes.length ∧
     dlUrlAt [] 11 [⟨[], false⟩, ⟨[1], true⟩, ⟨[], false⟩, ⟨[2], false⟩] 3 =
       requestUrl [] ((11 + 3) % sizes.length)) :=
  ⟨by decide,
   download_ladder_index [] 11 3 [⟨[], false⟩, ⟨[1], true⟩, ⟨[], false⟩, ⟨[2], false⟩] (by decide)⟩

/-- C7: the upload payload is exactly `1024 * 256 = 262144` bytes, every
attempt submits it as a multipart form field named `"file"` with filename
`"payload.bin"` and content-type `"application/octet-stream"`, and each
attempt adds exactly the full payload length to the worker's local counter
on success and exactly zero on failure, so a worker's local counter is
`262144 *` its number of successful attempts. -/
theorem upload_payload_and_counting :
    payloadSize = 262144 ∧
    uploadFiles.field = "file".toList ∧
    uploadFiles.filename = "payload.bin".toList ∧
    uploadFiles.contentType = "application/octet-stream".toList ∧
    (∀ local_bytes : ℕ, upStep local_bytes true = local_bytes + payloadSize ∧
       upStep local_bytes false = local_bytes) ∧
    (∀ tr : List Bool, upLocalBytes tr = payloadSize * tr.count true) := by
  refine ⟨rfl, rfl, rfl, rfl, fun b => ⟨rfl, rfl⟩, upLocalBytes_eq⟩

/-- C8: `run_with_spinner` never loses the monitored function's outcome:
an exception raised by the function is re-raised to the caller, a normal
return value is returned exactly, and in both cases the `finished` event is
set (the `finally` clause), so the reporter loop terminates. -/
theorem spinner_propagates_outcome :
    ∀ (ε α : Type) (e : ε) (v : α),
      runWithSpinner (Except.error e : Except ε α) = Except.error e ∧
      runWithSpinner (Except.ok v : Except ε α) = Except.ok (some v) ∧
      (targetRun (Except.error e : Except ε α)).2.2 = true ∧
      (targetRun (Except.ok v : Except ε α)).2.2 = true :=
  fun _ _ _ _ => ⟨rfl, rfl, rfl, rfl⟩

/-- C9: the final division in both meters divides by `max(0.001, duration)`
for every duration value, including zero and negative ones; that divisor is
always at least one millisecond and never zero, so division by zero is
unreachable. -/
theorem rate_divisor_floor :
    ∀ (bytes_total : ℕ) (duration_s : ℤ),
      rateDivisor duration_s = max (1 / 1000) (duration_s : ℚ) ∧
      (1 / 1000 : ℚ) ≤ rateDivisor duration_s ∧
      rateDivisor duration_s ≠ 0 ∧
      computeRate bytes_total duration_s = (bytes_total * 8 : ℚ) / rateDivisor duration_s := by
  intro bytes_total duration_s
  have hle : (1 / 1000 : ℚ) ≤ rateDivisor duration_s := le_max_left _ _
  have hne : rateDivisor duration_s ≠ 0 := by
    have : (0 : ℚ) < rateDivisor duration_s := lt_of_lt_of_le (by norm_num) hle
    exact ne_of_gt this
  exact ⟨rfl, hle, hne, rfl⟩

/-- C10: for every `threads` argument, including zero and negative values,
both transfer functions spawn exactly `max(1, threads)` workers
(`for i in range(max(1, threads))`), so at least one worker always runs. -/
theorem worker_count_at_least_one :
    ∀ threads : ℤ,
      (workerIds threads).length = (max 1 threads).toNat ∧
      1 ≤ (workerIds threads).length := by
  intro threads
  have hlen : (workerIds threads).length = (max 1 threads).toNat := by
    simp [workerIds]
  refine ⟨hlen, ?_⟩
  rw [hlen]
  have h1 : (1 : ℤ) ≤ max 1 threads := le_max_left _ _
  omega

end Speedtest
